import Mathlib

/-!
Verification development for the Cinematic Vault catalog application
(`Trial.py`).  The SQLite table `cinematic_treasures` is embedded as a
`List Movie` kept in database (insertion) order; pandas data frames are
lists of rows; SQL statements become list transformations.  Python floats
are modelled as exact rationals, Python strings as Lean `String`
(`str.lower()` restricted to its ASCII action, which covers every value
the derived metrics compare against).
-/

/-- One row of the `cinematic_treasures` table.  `id` is the integer
primary key; `added_date` is the creation timestamp text. -/
structure Movie where
  id : ℤ
  title : String
  director : String
  release_year : ℤ
  language : String
  rating : ℚ
  genre : String
  runtime : ℤ
  box_office : ℚ
  awards : String
  cinematographer : String
  soundtrack_composer : String
  critical_reception : ℚ
  user_reviews : String
  cultural_impact : String
  trivia : String
  added_date : String
deriving DecidableEq, Repr

/-- ASCII lowering of a character list (`str.lower()` / SQLite ASCII
case folding on the characters these metrics touch). -/
def lowerL (l : List Char) : List Char := l.map Char.toLower

/-- `str.lower()` on a whole string. -/
def pyLower (s : String) : String := String.mk (lowerL s.toList)

/-- The whitespace characters recognised by Python `str.split()`. -/
def isPySpace (ch : Char) : Bool :=
  ch == ' ' || ch == '\t' || ch == '\n' || ch == '\r' || ch == '\x0b' || ch == '\x0c'

/-- Accumulator pass of Python `str.split()`: splits on runs of
whitespace and drops empty fragments.  `acc` holds the current word
reversed. -/
def splitWsGo : List Char → List Char → List (List Char)
  | [], acc => if acc.isEmpty then [] else [acc.reverse]
  | ch :: rest, acc =>
    if isPySpace ch then
      if acc.isEmpty then splitWsGo rest [] else acc.reverse :: splitWsGo rest []
    else splitWsGo rest (ch :: acc)

/-- Python `s.split()` (no separator argument). -/
def pySplit (s : String) : List String :=
  (splitWsGo s.toList []).map (fun l => String.mk l)

/-- Python `int(x)` on an exact rational: truncation toward zero,
computed as T-division of numerator by denominator. -/
def pyInt (q : ℚ) : ℤ := Int.tdiv q.num (q.den : ℤ)

/-- Fuelled binary-digit extraction (`n / 2` halves at least once per
step, so fuel `n` always suffices). -/
def natBinGo : ℕ → ℕ → List Char
  | _, 0 => []
  | 0, _ + 1 => []
  | fuel + 1, n + 1 =>
    natBinGo fuel ((n + 1) / 2) ++ [if (n + 1) % 2 == 1 then '1' else '0']

/-- Binary digits of a positive natural, most significant first
(empty for 0); helper for Python `format(n, 'b')`. -/
def natBin (n : ℕ) : List Char := natBinGo n n

/-- Python `format(n, 'b')` for a natural number. -/
def binDigits (n : ℕ) : List Char := if n = 0 then ['0'] else natBin n

/-- Zero-pad on the left to total width `w` (never truncates). -/
def leftPad (w : ℕ) (l : List Char) : List Char :=
  List.replicate (w - l.length) '0' ++ l

/-- Python `format(n, '0Nb')` for an integer: zero-padded binary of
total width `w`, the sign character counting toward the width. -/
def formatBin (n : ℤ) (w : ℕ) : List Char :=
  if n < 0 then '-' :: leftPad (w - 1) (binDigits n.natAbs) else leftPad w (binDigits n.toNat)

/-- `generate_movie_dna`: 8-bit codes of the title's characters, then
8-bit `int(rating * 10)`, then 16-bit `release_year`. -/
def generate_movie_dna (m : Movie) : List Char :=
  (m.title.toList.foldl (fun dna ch => dna ++ formatBin (ch.toNat : ℤ) 8) [])
    ++ formatBin (pyInt (m.rating * 10)) 8
    ++ formatBin m.release_year 16

/-- `movie_dna_similarity`: matching positions of the zipped sequences
divided by the length of the first sequence. -/
def movie_dna_similarity (dna1 dna2 : List Char) : ℚ :=
  (((dna1.zip dna2).countP (fun p => p.1 == p.2) : ℕ) : ℚ) / ((dna1.length : ℕ) : ℚ)

/-- The fixed impact vocabulary of `calculate_cultural_impact_score`. -/
def impact_words : List String :=
  ["influential", "groundbreaking", "iconic", "revolutionary", "landmark"]

/-- `calculate_cultural_impact_score`: tokens of the lowercased text
that lie in the vocabulary -- each occurrence counted -- over the
vocabulary size 5. -/
def calculate_cultural_impact_score (impact : String) : ℚ :=
  (((pySplit (pyLower impact)).countP (fun w => impact_words.contains w) : ℕ) : ℚ)
    / ((impact_words.length : ℕ) : ℚ)

/-- Comma splitter of Python `s.split(',')`; `acc` holds the current
fragment reversed. -/
def splitCommaGo : List Char → List Char → List (List Char)
  | [], acc => [acc.reverse]
  | c :: rest, acc =>
    if c = ',' then acc.reverse :: splitCommaGo rest [] else splitCommaGo rest (c :: acc)

/-- Python `s.split(',')`. -/
def pySplitComma (s : String) : List String :=
  (splitCommaGo s.toList []).map (fun l => String.mk l)

/-- `calculate_cinematic_quotient`; `currentYear` stands for
`datetime.now().year` read at the call site, and the awards term is
`len(awards.split(',')) if awards else 0`. -/
def calculate_cinematic_quotient (currentYear : ℤ) (m : Movie) : ℚ :=
  let base_score := m.rating * 10
  let year_factor := ((currentYear - m.release_year : ℤ) : ℚ) / 100
  let impact_score := calculate_cultural_impact_score m.cultural_impact
  let awards_score : ℚ := if m.awards ≠ "" then (((pySplitComma m.awards).length : ℕ) : ℚ) else 0
  base_score + year_factor * 5 + impact_score * 10 + awards_score * 2

/-- `update_cinematic_gem`: `UPDATE ... SET <all mutable fields> WHERE id=?`,
acting on every row whose id matches (ids are unique in practice). -/
def update_cinematic_gem (db : List Movie) (id : ℤ) (title director : String)
    (release_year : ℤ) (language : String) (rating : ℚ) (genre : String)
    (runtime : ℤ) (box_office : ℚ) (awards cinematographer soundtrack_composer : String)
    (critical_reception : ℚ) (user_reviews cultural_impact trivia : String) : List Movie :=
  db.map (fun r =>
    if r.id = id then
      { r with title := title, director := director, release_year := release_year,
               language := language, rating := rating, genre := genre, runtime := runtime,
               box_office := box_office, awards := awards, cinematographer := cinematographer,
               soundtrack_composer := soundtrack_composer,
               critical_reception := critical_reception, user_reviews := user_reviews,
               cultural_impact := cultural_impact, trivia := trivia }
    else r)

/-- `delete_cinematic_gem`: `DELETE FROM cinematic_treasures WHERE id=?`. -/
def delete_cinematic_gem (db : List Movie) (id : ℤ) : List Movie :=
  db.filter (fun r => r.id != id)

/-- A column name of the `cinematic_treasures` table usable as a filter
criterion. -/
inductive Col
  | title | director | release_year | language | rating | genre | runtime
  | box_office | awards | cinematographer | soundtrack_composer
  | critical_reception | user_reviews | cultural_impact | trivia
deriving DecidableEq, Repr

/-- The columns `filter_cinematic_treasures` treats numerically
(`criteria in ['release_year', 'rating', 'runtime', 'box_office',
'critical_reception']`). -/
def Col.isNumericCol : Col → Bool
  | .release_year | .rating | .runtime | .box_office | .critical_reception => true
  | _ => false

/-- A dynamically typed SQLite value: the filter's single `value`
parameter is compared numerically or textually depending on the column. -/
inductive SqlValue
  | num : ℚ → SqlValue
  | text : String → SqlValue
deriving DecidableEq, Repr

/-- The stored value of a column in a row. -/
def Movie.fieldVal (m : Movie) : Col → SqlValue
  | .title => .text m.title
  | .director => .text m.director
  | .release_year => .num (m.release_year : ℚ)
  | .language => .text m.language
  | .rating => .num m.rating
  | .genre => .text m.genre
  | .runtime => .num (m.runtime : ℚ)
  | .box_office => .num m.box_office
  | .awards => .text m.awards
  | .cinematographer => .text m.cinematographer
  | .soundtrack_composer => .text m.soundtrack_composer
  | .critical_reception => .num m.critical_reception
  | .user_reviews => .text m.user_reviews
  | .cultural_impact => .text m.cultural_impact
  | .trivia => .text m.trivia

/-- The text stored in a non-numeric column (`""` on the numeric
columns, which the text branch of the filter never reaches). -/
def Movie.textOf (m : Movie) : Col → String
  | .title => m.title
  | .director => m.director
  | .language => m.language
  | .genre => m.genre
  | .awards => m.awards
  | .cinematographer => m.cinematographer
  | .soundtrack_composer => m.soundtrack_composer
  | .user_reviews => m.user_reviews
  | .cultural_impact => m.cultural_impact
  | .trivia => m.trivia
  | _ => ""

/-- SQLite `=` between dynamically typed values. -/
def sqlEq : SqlValue → SqlValue → Bool
  | .num a, .num b => a == b
  | .text a, .text b => a == b
  | _, _ => false

/-- SQLite `LIKE` matching on character lists: `%` matches any sequence,
`_` any single character, letters compare after ASCII case folding. -/
def likeList : List Char → List Char → Bool
  | [], s => s.isEmpty
  | p :: ps, s =>
    if p = '%' then
      likeList ps s ||
        (match s with
         | [] => false
         | _ :: cs => likeList (p :: ps) cs)
    else
      match s with
      | [] => false
      | c :: cs =>
        if p = '_' then likeList ps cs
        else (Char.toLower p == Char.toLower c) && likeList ps cs
termination_by ps s => (ps.length, s.length)
decreasing_by
  · exact Prod.Lex.left _ _ (by simp)
  · exact Prod.Lex.right _ (by simp)
  · exact Prod.Lex.left _ _ (by simp)
  · exact Prod.Lex.left _ _ (by simp)

/-- The pattern `'%' + value + '%'` built by the text branch of the
filter. -/
def likePattern (v : String) : List Char := '%' :: v.toList ++ ['%']

/-- `filter_cinematic_treasures`: `WHERE col = ?` on the numeric
columns, `WHERE col LIKE '%' + value + '%'` otherwise; row order of the
table is preserved. -/
def filter_cinematic_treasures (db : List Movie) (criteria : Col) (value : SqlValue) :
    List Movie :=
  if criteria.isNumericCol then
    db.filter (fun m => sqlEq (m.fieldVal criteria) value)
  else
    db.filter (fun m =>
      match m.fieldVal criteria, value with
      | .text s, .text v => likeList (likePattern v) s.toList
      | _, _ => false)

/-- The scan of `find_cinematic_soulmate`: walk the rows in table order,
skip the target id, keep a candidate exactly when its similarity
strictly exceeds the running maximum (initially 0). -/
def soulmateLoop (tdna : List Char) (movie_id : ℤ) :
    List Movie → Option Movie × ℚ → Option Movie × ℚ
  | [], acc => acc
  | m :: rest, acc =>
    if m.id ≠ movie_id then
      soulmateLoop tdna movie_id rest
        (if acc.2 < movie_dna_similarity tdna (generate_movie_dna m)
         then (some m, movie_dna_similarity tdna (generate_movie_dna m))
         else acc)
    else soulmateLoop tdna movie_id rest acc

/-- `find_cinematic_soulmate`; `none` models the `iloc[0]` failure when
no row carries the target id, otherwise the `(soulmate, max_similarity)`
pair is returned. -/
def find_cinematic_soulmate (db : List Movie) (movie_id : ℤ) :
    Option (Option Movie × ℚ) :=
  match db.find? (fun m => m.id == movie_id) with
  | none => none
  | some target => some (soulmateLoop (generate_movie_dna target) movie_id db (none, 0))

/-! ## Specification-side definitions (stated from the spec's wording,
for comparison with the embedded code) -/

/-- Spec wording: "count of comma-separated awards tokens" (an empty
awards text carries no token). -/
def awardsTokenCount (awards : String) : ℕ :=
  if awards = "" then 0 else (pySplitComma awards).length

/-- Spec wording: occurrences among the whitespace-separated tokens of
the lowercased text that belong to the five-word vocabulary. -/
def vocabOccurrences (impact : String) : ℕ :=
  (pySplit (pyLower impact)).countP (fun w => impact_words.contains w)

/-! ## Test fixtures -/

/-- A catalog row with the fields the claims vary; the remaining fields
are fixed innocuous values. -/
def fixtureMovie (i : ℤ) (t : String) (ry : ℤ) (rat : ℚ) (aw ci : String) : Movie :=
  { id := i, title := t, director := "dir", release_year := ry, language := "en",
    rating := rat, genre := "drama", runtime := 100, box_office := 1,
    awards := aw, cinematographer := "cine", soundtrack_composer := "comp",
    critical_reception := 5, user_reviews := "fine", cultural_impact := ci,
    trivia := "none", added_date := "2024-01-01 00:00:00" }

/-- The movie of the spec's worked quotient example. -/
def movieA : Movie := fixtureMovie 1 "x" 2000 8 "Oscar,Globe" "a groundbreaking and iconic film"

/-- A row whose fingerprint is 24 zero bits. -/
def movieZero : Movie := fixtureMovie 1 "" 0 0 "" ""

/-- A row whose fingerprint is 24 one bits: `int(25.5 * 10) = 255` and
`format(65535, '016b')` are all ones. -/
def movieOnes : Movie := fixtureMovie 2 "" 65535 (51 / 2) "" ""

/-- A row sharing every fingerprint-relevant field with `movieZero` but
carrying a different id. -/
def movieTwin : Movie := fixtureMovie 2 "" 0 0 "" ""

/-! ## Helper lemmas -/

theorem leftPad_length (w : ℕ) (l : List Char) :
    (leftPad w l).length = (w - l.length) + l.length := by
  simp [leftPad]

theorem formatBin_length_ge (n : ℤ) (w : ℕ) : w ≤ (formatBin n w).length := by
  unfold formatBin
  split
  · simp [leftPad_length]
    omega
  · rw [leftPad_length]
    omega

theorem generate_movie_dna_length (m : Movie) : 24 ≤ (generate_movie_dna m).length := by
  unfold generate_movie_dna
  have h1 := formatBin_length_ge (pyInt (m.rating * 10)) 8
  have h2 := formatBin_length_ge m.release_year 16
  simp only [List.length_append]
  omega

theorem countP_zip_self (l : List Char) :
    (l.zip l).countP (fun p => p.1 == p.2) = l.length := by
  induction l with
  | nil => rfl
  | cons a l ih => simp [List.zip_cons_cons, List.countP_cons, ih]

/-- C5: for every movie record `M`, the similarity of `M`'s fingerprint
with itself equals exactly 1: each zipped position matches and the match
count is the full (positive) fingerprint length. -/
theorem similarity_self_eq_one (m : Movie) :
    movie_dna_similarity (generate_movie_dna m) (generate_movie_dna m) = 1 := by
  have h := generate_movie_dna_length m
  unfold movie_dna_similarity
  rw [countP_zip_self]
  rw [div_self]
  exact Nat.cast_ne_zero.mpr (by omega)

/-- C9: the similarity function is total on any two movie records: every
generated fingerprint has length at least 24, so the divisor is nonzero,
and the result (matches over the common prefix divided by the first
length) lies in [0, 1]. -/
theorem similarity_total_and_bounded (m1 m2 : Movie) :
    24 ≤ (generate_movie_dna m1).length ∧
    0 ≤ movie_dna_similarity (generate_movie_dna m1) (generate_movie_dna m2) ∧
    movie_dna_similarity (generate_movie_dna m1) (generate_movie_dna m2) ≤ 1 := by
  have hlen := generate_movie_dna_length m1
  refine ⟨hlen, ?_, ?_⟩
  · unfold movie_dna_similarity
    positivity
  · unfold movie_dna_similarity
    have hc : ((generate_movie_dna m1).zip (generate_movie_dna m2)).countP
        (fun p => p.1 == p.2) ≤ (generate_movie_dna m1).length := by
      calc ((generate_movie_dna m1).zip (generate_movie_dna m2)).countP (fun p => p.1 == p.2)
          ≤ ((generate_movie_dna m1).zip (generate_movie_dna m2)).length :=
            List.countP_le_length _
        _ ≤ (generate_movie_dna m1).length := by
            rw [List.length_zip]
            exact Nat.min_le_left _ _
    rw [div_le_one (by exact_mod_cast Nat.lt_of_lt_of_le (by omega) hlen)]
    exact_mod_cast hc

/-- C2: the cinematic quotient equals
rating*10 + (current_year - release_year)/100*5 + cultural_impact_score*10
+ (comma-separated awards token count)*2, and on the spec's worked
example (rating 8, year 2000 at current year 2024, two vocabulary hits,
two awards tokens) it equals 89.2 = 446/5. -/
theorem cinematic_quotient_formula (currentYear : ℤ) (m : Movie) :
    calculate_cinematic_quotient currentYear m =
      m.rating * 10 + ((currentYear : ℚ) - (m.release_year : ℚ)) / 100 * 5
        + calculate_cultural_impact_score m.cultural_impact * 10
        + (awardsTokenCount m.awards : ℚ) * 2 ∧
    calculate_cinematic_quotient 2024 movieA = 446 / 5 := by
  constructor
  · unfold calculate_cinematic_quotient awardsTokenCount
    by_cases h : m.awards = ""
    · simp [h]
    · simp [h]
  · have h1 : calculate_cultural_impact_score "a groundbreaking and iconic film" = 2 / 5 := by
      rfl
    have h2 : (pySplitComma "Oscar,Globe").length = 2 := by rfl
    have h3 : ("Oscar,Globe" : String) ≠ "" := by simp
    norm_num [calculate_cinematic_quotient, movieA, fixtureMovie, h1, h2, h3]

theorem map_self_of_eq {α : Type} (l : List α) (f : α → α) (h : ∀ a ∈ l, f a = a) :
    l.map f = l := by
  induction l with
  | nil => rfl
  | cons a l ih =>
    simp only [List.map_cons, h a (by simp)]
    rw [ih (fun a ha => h a (by simp [ha]))]

/-- C6: updating a stored record by id with its own current field values
leaves the stored sequence of records unchanged. -/
theorem update_self_noop (db : List Movie) (r : Movie) (hr : r ∈ db)
    (hu : ∀ r' ∈ db, r'.id = r.id → r' = r) :
    update_cinematic_gem db r.id r.title r.director r.release_year r.language r.rating
      r.genre r.runtime r.box_office r.awards r.cinematographer r.soundtrack_composer
      r.critical_reception r.user_reviews r.cultural_impact r.trivia = db := by
  unfold update_cinematic_gem
  apply map_self_of_eq
  intro a ha
  by_cases h : a.id = r.id
  · have h' : a = r := hu a ha h
    subst h'
    simp
  · simp [h]

/-- Closed witness for C6 on a one-row catalog. -/
theorem update_self_noop_witness :
    update_cinematic_gem [movieA] movieA.id movieA.title movieA.director movieA.release_year
      movieA.language movieA.rating movieA.genre movieA.runtime movieA.box_office movieA.awards
      movieA.cinematographer movieA.soundtrack_composer movieA.critical_reception
      movieA.user_reviews movieA.cultural_impact movieA.trivia = [movieA] :=
  update_self_noop [movieA] movieA (by simp)
    (by intro r' hr' _; simpa using hr')

/-- C7: on an id absent from the catalog, both update and delete return
the stored state unchanged (and, being total functions, surface no
error). -/
theorem absent_id_noop (db : List Movie) (i : ℤ) (title director : String)
    (release_year : ℤ) (language : String) (rating : ℚ) (genre : String)
    (runtime : ℤ) (box_office : ℚ) (awards cinematographer soundtrack_composer : String)
    (critical_reception : ℚ) (user_reviews cultural_impact trivia : String)
    (h : ∀ r ∈ db, r.id ≠ i) :
    update_cinematic_gem db i title director release_year language rating genre runtime
      box_office awards cinematographer soundtrack_composer critical_reception
      user_reviews cultural_impact trivia = db ∧
    delete_cinematic_gem db i = db := by
  constructor
  · apply map_self_of_eq
    intro a ha
    simp [h a ha]
  · unfold delete_cinematic_gem
    apply List.filter_eq_self.mpr
    intro a ha
    simpa using h a ha

/-- Closed witness for C7: id 99 is absent from the one-row catalog. -/
theorem absent_id_noop_witness :
    update_cinematic_gem [movieA] 99 "T" "D" 1999 "fr" 7 "noir" 90 2 "Palme" "C" "S" 6
      "ok" "big" "fact" = [movieA] ∧
    delete_cinematic_gem [movieA] 99 = [movieA] :=
  absent_id_noop [movieA] 99 "T" "D" 1999 "fr" 7 "noir" 90 2 "Palme" "C" "S" 6
    "ok" "big" "fact" (by intro r hr; simp at hr; subst hr; decide)

/-- C8: an update by id rewrites, in place, exactly the rows carrying
that id -- every mutable field takes the given value while `id` and
`added_date` are kept -- and returns every other row unchanged, at its
original position. -/
theorem update_frame (db : List Movie) (i : ℤ) (title director : String)
    (release_year : ℤ) (language : String) (rating : ℚ) (genre : String)
    (runtime : ℤ) (box_office : ℚ) (awards cinematographer soundtrack_composer : String)
    (critical_reception : ℚ) (user_reviews cultural_impact trivia : String) :
    (update_cinematic_gem db i title director release_year language rating genre runtime
      box_office awards cinematographer soundtrack_composer critical_reception
      user_reviews cultural_impact trivia).length = db.length ∧
    ∀ (k : ℕ) (r : Movie), db[k]? = some r →
      (r.id ≠ i →
        (update_cinematic_gem db i title director release_year language rating genre runtime
          box_office awards cinematographer soundtrack_composer critical_reception
          user_reviews cultural_impact trivia)[k]? = some r) ∧
      (r.id = i → ∃ r',
        (update_cinematic_gem db i title director release_year language rating genre runtime
          box_office awards cinematographer soundtrack_composer critical_reception
          user_reviews cultural_impact trivia)[k]? = some r' ∧
        r'.id = r.id ∧ r'.added_date = r.added_date ∧
        r'.title = title ∧ r'.director = director ∧ r'.release_year = release_year ∧
        r'.language = language ∧ r'.rating = rating ∧ r'.genre = genre ∧
        r'.runtime = runtime ∧ r'.box_office = box_office ∧ r'.awards = awards ∧
        r'.cinematographer = cinematographer ∧ r'.soundtrack_composer = soundtrack_composer ∧
        r'.critical_reception = critical_reception ∧ r'.user_reviews = user_reviews ∧
        r'.cultural_impact = cultural_impact ∧ r'.trivia = trivia) := by
  unfold update_cinematic_gem
  refine ⟨by simp, ?_⟩
  intro k r hk
  constructor
  · intro hne
    rw [List.getElem?_map, hk]
    simp [hne]
  · intro heq
    rw [List.getElem?_map, hk]
    refine ⟨_, rfl, ?_⟩
    simp [heq]

/-- Closed witness for C8 on a one-row catalog whose row carries the
updated id. -/
theorem update_frame_witness :
    ∃ r',
      (update_cinematic_gem [movieA] 1 "T" "D" 1999 "fr" 7 "noir" 90 2 "Palme" "C" "S" 6
        "ok" "big" "fact")[0]? = some r' ∧
      r'.id = movieA.id ∧ r'.added_date = movieA.added_date ∧
      r'.title = "T" ∧ r'.director = "D" ∧ r'.release_year = 1999 ∧
      r'.language = "fr" ∧ r'.rating = 7 ∧ r'.genre = "noir" ∧
      r'.runtime = 90 ∧ r'.box_office = 2 ∧ r'.awards = "Palme" ∧
      r'.cinematographer = "C" ∧ r'.soundtrack_composer = "S" ∧
      r'.critical_reception = 6 ∧ r'.user_reviews = "ok" ∧
      r'.cultural_impact = "big" ∧ r'.trivia = "fact" :=
  ((update_frame [movieA] 1 "T" "D" 1999 "fr" 7 "noir" 90 2 "Palme" "C" "S" 6
      "ok" "big" "fact").2 0 movieA rfl).2 rfl

theorem nodup_subset_length_le {α : Type} [DecidableEq α] {l l' : List α}
    (hn : l.Nodup) (hs : ∀ a ∈ l, a ∈ l') : l.length ≤ l'.length := by
  calc l.length = l.toFinset.card := (List.toFinset_card_of_nodup hn).symm
    _ ≤ l'.toFinset.card :=
        Finset.card_le_card
          (fun a ha => List.mem_toFinset.mpr (hs a (List.mem_toFinset.mp ha)))
    _ ≤ l'.length := List.toFinset_card_le l'

/-- C1 (amended): the cultural impact score equals the number of
whitespace-separated tokens of the lowercased text that belong to the
five-word vocabulary -- each occurrence counted -- divided by 5; it is
always nonnegative, and it is at most 1 whenever the text's tokens are
pairwise distinct (a repeated vocabulary word pushes it above 1). -/
theorem cultural_impact_score_characterisation (impact : String) :
    calculate_cultural_impact_score impact = (vocabOccurrences impact : ℚ) / 5 ∧
    0 ≤ calculate_cultural_impact_score impact ∧
    ((pySplit (pyLower impact)).Nodup → calculate_cultural_impact_score impact ≤ 1) := by
  refine ⟨by norm_num [calculate_cultural_impact_score, vocabOccurrences, impact_words], ?_, ?_⟩
  · unfold calculate_cultural_impact_score
    positivity
  · intro hnd
    unfold calculate_cultural_impact_score
    rw [div_le_one (by norm_num [impact_words])]
    have h5 : (pySplit (pyLower impact)).countP (fun w => impact_words.contains w) ≤
        impact_words.length := by
      rw [List.countP_eq_length_filter]
      refine nodup_subset_length_le (hnd.filter _) ?_
      intro a ha
      have hpa := List.of_mem_filter ha
      simpa using hpa
    exact_mod_cast h5

/-- Closed witness for C1 on a duplicate-free text. -/
theorem cultural_impact_score_witness :
    0 ≤ calculate_cultural_impact_score "an iconic film" ∧
    calculate_cultural_impact_score "an iconic film" ≤ 1 :=
  ⟨(cultural_impact_score_characterisation "an iconic film").2.1,
   (cultural_impact_score_characterisation "an iconic film").2.2 (by decide)⟩

/-- C1 counterexample: a text repeating one vocabulary word six times
scores 6/5, outside [0, 1], refuting the claimed bound (the code counts
occurrences of vocabulary words, not the fraction of the vocabulary
present). -/
theorem cultural_impact_score_gt_one :
    1 < calculate_cultural_impact_score "iconic iconic iconic iconic iconic iconic" := by
  have h : calculate_cultural_impact_score "iconic iconic iconic iconic iconic iconic"
      = 6 / 5 := by rfl
  rw [h]
  norm_num

theorem soulmateLoop_no_gain (tdna : List Char) (i : ℤ) (l : List Movie)
    (acc : Option Movie × ℚ)
    (h : ∀ m ∈ l, m.id ≠ i → movie_dna_similarity tdna (generate_movie_dna m) ≤ acc.2) :
    soulmateLoop tdna i l acc = acc := by
  induction l generalizing acc with
  | nil => rfl
  | cons m rest ih =>
    rw [soulmateLoop]
    by_cases hid : m.id ≠ i
    · rw [if_pos hid]
      rw [if_neg (not_lt.mpr (h m (by simp) hid))]
      exact ih acc (fun m' hm' hid' => h m' (by simp [hm']) hid')
    · rw [if_neg hid]
      exact ih acc (fun m' hm' hid' => h m' (by simp [hm']) hid')

theorem soulmateLoop_gain (tdna : List Char) (i : ℤ) (l : List Movie) :
    ∀ acc : Option Movie × ℚ,
    (∃ m ∈ l, m.id ≠ i ∧ acc.2 < movie_dna_similarity tdna (generate_movie_dna m)) →
    ∃ r l1 l2,
      soulmateLoop tdna i l acc =
        (some r, movie_dna_similarity tdna (generate_movie_dna r)) ∧
      l.filter (fun m => m.id != i) = l1 ++ r :: l2 ∧
      (∀ m ∈ l1, movie_dna_similarity tdna (generate_movie_dna m) <
        movie_dna_similarity tdna (generate_movie_dna r)) ∧
      (∀ m ∈ l2, movie_dna_similarity tdna (generate_movie_dna m) ≤
        movie_dna_similarity tdna (generate_movie_dna r)) ∧
      acc.2 < movie_dna_similarity tdna (generate_movie_dna r) := by
  induction l with
  | nil =>
    rintro acc ⟨m, hm, -, -⟩
    simp at hm
  | cons m rest ih =>
    rintro acc ⟨m0, hm0, hid0, hgt0⟩
    by_cases hid : m.id ≠ i
    · rw [soulmateLoop, if_pos hid]
      by_cases hs : acc.2 < movie_dna_similarity tdna (generate_movie_dna m)
      · rw [if_pos hs]
        by_cases hrest : ∃ m' ∈ rest, m'.id ≠ i ∧
            movie_dna_similarity tdna (generate_movie_dna m) <
              movie_dna_similarity tdna (generate_movie_dna m')
        · obtain ⟨r, l1, l2, heq, hdec, hlt, hle, hacc⟩ :=
            ih (some m, movie_dna_similarity tdna (generate_movie_dna m)) hrest
          refine ⟨r, m :: l1, l2, heq, ?_, ?_, hle, lt_trans hs hacc⟩
          · simp only [List.filter_cons, if_pos (bne_iff_ne.mpr hid)]
            rw [hdec]
            rfl
          · intro m' hm'
            rcases List.mem_cons.mp hm' with rfl | hm'1
            · exact hacc
            · exact hlt m' hm'1
        · push_neg at hrest
          rw [soulmateLoop_no_gain tdna i rest _
            (fun m' hm' hid' => hrest m' hm' hid')]
          refine ⟨m, [], rest.filter (fun m => m.id != i), rfl, ?_, by simp, ?_, hs⟩
          · simp only [List.filter_cons, if_pos (bne_iff_ne.mpr hid)]
            rfl
          · intro m' hm'
            have hmem := (List.mem_filter.mp hm').1
            have hne : m'.id ≠ i := bne_iff_ne.mp (List.mem_filter.mp hm').2
            exact hrest m' hmem hne
      · rw [if_neg hs]
        have hwit : ∃ m' ∈ rest, m'.id ≠ i ∧
            acc.2 < movie_dna_similarity tdna (generate_movie_dna m') := by
          rcases List.mem_cons.mp hm0 with rfl | hm0rest
          · exact absurd hgt0 hs
          · exact ⟨m0, hm0rest, hid0, hgt0⟩
        obtain ⟨r, l1, l2, heq, hdec, hlt, hle, hacc⟩ := ih acc hwit
        refine ⟨r, m :: l1, l2, heq, ?_, ?_, hle, hacc⟩
        · simp only [List.filter_cons, if_pos (bne_iff_ne.mpr hid)]
          rw [hdec]
          rfl
        · intro m' hm'
          rcases List.mem_cons.mp hm' with rfl | hm'1
          · exact lt_of_le_of_lt (not_lt.mp hs) hacc
          · exact hlt m' hm'1
    · rw [soulmateLoop, if_neg hid]
      have hwit : ∃ m' ∈ rest, m'.id ≠ i ∧
          acc.2 < movie_dna_similarity tdna (generate_movie_dna m') := by
        rcases List.mem_cons.mp hm0 with rfl | hm0rest
        · exact absurd hid0 hid
        · exact ⟨m0, hm0rest, hid0, hgt0⟩
      obtain ⟨r, l1, l2, heq, hdec, hlt, hle, hacc⟩ := ih acc hwit
      refine ⟨r, l1, l2, heq, ?_, hlt, hle, hacc⟩
      have hidb : (m.id != i) = false := by
        have hmi : m.id = i := not_not.mp hid
        simp [hmi]
      simp only [List.filter_cons, hidb]
      exact hdec

/-- C10: when no other record's fingerprint similarity to the target is
strictly positive -- in particular in a single-record catalog -- the
soulmate search returns no record together with similarity 0. -/
theorem soulmate_none_when_no_positive (db : List Movie) (i : ℤ) (target : Movie)
    (hfind : db.find? (fun m => m.id == i) = some target)
    (h : ∀ m ∈ db, m.id ≠ i →
      movie_dna_similarity (generate_movie_dna target) (generate_movie_dna m) ≤ 0) :
    find_cinematic_soulmate db i = some (none, 0) := by
  unfold find_cinematic_soulmate
  rw [hfind]
  change some (soulmateLoop (generate_movie_dna target) i db (none, 0)) = some (none, 0)
  rw [soulmateLoop_no_gain _ _ _ _ h]

/-- Closed witness for C10: a catalog holding only the target record. -/
theorem soulmate_none_witness : find_cinematic_soulmate [movieZero] 1 = some (none, 0) :=
  soulmate_none_when_no_positive [movieZero] 1 movieZero rfl
    (by
      intro m hm hne
      simp only [List.mem_singleton] at hm
      subst hm
      exact absurd rfl hne)

/-- C3 (amended): the soulmate search scans the other records linearly
and, provided some other record has strictly positive similarity to the
target, returns the record of maximum similarity, the first-seen record
winning on ties (every earlier record is strictly below it, every record
is at most it); when no other record has positive similarity it returns
no record instead (see the counterexample). -/
theorem soulmate_first_max (db : List Movie) (i : ℤ) (target : Movie)
    (hfind : db.find? (fun m => m.id == i) = some target)
    (hpos : ∃ m ∈ db, m.id ≠ i ∧
      0 < movie_dna_similarity (generate_movie_dna target) (generate_movie_dna m)) :
    ∃ r l1 l2,
      find_cinematic_soulmate db i =
        some (some r,
          movie_dna_similarity (generate_movie_dna target) (generate_movie_dna r)) ∧
      db.filter (fun m => m.id != i) = l1 ++ r :: l2 ∧
      (∀ m ∈ l1, movie_dna_similarity (generate_movie_dna target) (generate_movie_dna m) <
        movie_dna_similarity (generate_movie_dna target) (generate_movie_dna r)) ∧
      (∀ m ∈ db.filter (fun m => m.id != i),
        movie_dna_similarity (generate_movie_dna target) (generate_movie_dna m) ≤
        movie_dna_similarity (generate_movie_dna target) (generate_movie_dna r)) := by
  obtain ⟨r, l1, l2, heq, hdec, hlt, hle, hacc⟩ :=
    soulmateLoop_gain (generate_movie_dna target) i db (none, 0) hpos
  refine ⟨r, l1, l2, ?_, hdec, hlt, ?_⟩
  · unfold find_cinematic_soulmate
    rw [hfind]
    change some (soulmateLoop (generate_movie_dna target) i db (none, 0)) = _
    rw [heq]
  · intro m hm
    rw [hdec] at hm
    rcases List.mem_append.mp hm with hm1 | hm2
    · exact le_of_lt (hlt m hm1)
    · rcases List.mem_cons.mp hm2 with rfl | hm3
      · exact le_refl _
      · exact hle m hm3

/-- Closed witness for C3 on a two-row catalog whose other row has
similarity 1 to the target. -/
theorem soulmate_first_max_witness :
    ∃ r l1 l2,
      find_cinematic_soulmate [movieZero, movieTwin] 1 =
        some (some r,
          movie_dna_similarity (generate_movie_dna movieZero) (generate_movie_dna r)) ∧
      List.filter (fun m => m.id != 1) [movieZero, movieTwin] = l1 ++ r :: l2 ∧
      (∀ m ∈ l1, movie_dna_similarity (generate_movie_dna movieZero) (generate_movie_dna m) <
        movie_dna_similarity (generate_movie_dna movieZero) (generate_movie_dna r)) ∧
      (∀ m ∈ List.filter (fun m => m.id != 1) [movieZero, movieTwin],
        movie_dna_similarity (generate_movie_dna movieZero) (generate_movie_dna m) ≤
        movie_dna_similarity (generate_movie_dna movieZero) (generate_movie_dna r)) :=
  soulmate_first_max [movieZero, movieTwin] 1 movieZero rfl
    ⟨movieTwin, by simp, by decide, by
      have hdna : generate_movie_dna movieTwin = generate_movie_dna movieZero := rfl
      have h24 := generate_movie_dna_length movieZero
      rw [hdna]
      unfold movie_dna_similarity
      rw [countP_zip_self]
      have hpos : (0 : ℚ) < ((generate_movie_dna movieZero).length : ℚ) := by
        exact_mod_cast Nat.lt_of_lt_of_le (by norm_num) h24
      rw [div_self (ne_of_gt hpos)]
      norm_num⟩

/-- C3 counterexample: in the catalog [movieZero, movieOnes] the single
other record (movieOnes, complementary 24-bit fingerprint, similarity 0)
is the record of maximum similarity, yet the search returns no record at
all. -/
theorem soulmate_counterexample :
    (List.filter (fun m => m.id != 1) [movieZero, movieOnes]).length = 1 ∧
    find_cinematic_soulmate [movieZero, movieOnes] 1 = some (none, 0) := by
  constructor
  · rfl
  · have hq0 : (movieZero.rating * 10 : ℚ) = 0 := by norm_num [movieZero, fixtureMovie]
    have hq255 : (movieOnes.rating * 10 : ℚ) = 255 := by norm_num [movieOnes, fixtureMovie]
    have hk0 : pyInt (movieZero.rating * 10) = 0 := by
      rw [hq0]
      decide
    have hk255 : pyInt (movieOnes.rating * 10) = 255 := by
      rw [hq255]
      decide
    have hd0 : generate_movie_dna movieZero = List.replicate 24 '0' := by
      unfold generate_movie_dna
      rw [hk0]
      decide
    have hd255 : generate_movie_dna movieOnes = List.replicate 24 '1' := by
      unfold generate_movie_dna
      rw [hk255]
      decide
    have hsim : movie_dna_similarity (generate_movie_dna movieZero)
        (generate_movie_dna movieOnes) = 0 := by
      unfold movie_dna_similarity
      rw [hd0, hd255]
      have hc : ((List.replicate 24 '0').zip (List.replicate 24 '1')).countP
          (fun p => p.1 == p.2) = 0 := by decide
      rw [hc]
      simp
    have hall : ∀ m ∈ [movieZero, movieOnes], m.id ≠ 1 →
        movie_dna_similarity (generate_movie_dna movieZero) (generate_movie_dna m) ≤
          (0 : ℚ) := by
      intro m hm hne
      rcases List.mem_cons.mp hm with rfl | hm2
      · exact absurd rfl hne
      · have hm3 : m = movieOnes := by simpa using hm2
        subst hm3
        rw [hsim]
    unfold find_cinematic_soulmate
    have hfind : List.find? (fun m => m.id == 1) [movieZero, movieOnes] = some movieZero :=
      rfl
    rw [hfind]
    change some (soulmateLoop (generate_movie_dna movieZero) 1 [movieZero, movieOnes]
      (none, 0)) = _
    rw [soulmateLoop_no_gain _ _ _ _ hall]

theorem likeList_nil_eq (s : List Char) : likeList [] s = s.isEmpty := by
  unfold likeList
  rfl

theorem likeList_pct_nil (ps : List Char) : likeList ('%' :: ps) [] = likeList ps [] := by
  conv_lhs => rw [likeList]
  simp

theorem likeList_pct_cons (ps : List Char) (c : Char) (cs : List Char) :
    likeList ('%' :: ps) (c :: cs) = (likeList ps (c :: cs) || likeList ('%' :: ps) cs) := by
  conv_lhs => rw [likeList]
  simp

theorem likeList_lit_nil (p : Char) (ps : List Char) (hp : p ≠ '%') :
    likeList (p :: ps) [] = false := by
  conv_lhs => rw [likeList]
  simp [hp]

theorem likeList_lit_cons (p : Char) (ps : List Char) (c : Char) (cs : List Char)
    (hp : p ≠ '%') (hp2 : p ≠ '_') :
    likeList (p :: ps) (c :: cs) = ((Char.toLower p == Char.toLower c) && likeList ps cs) := by
  conv_lhs => rw [likeList]
  simp [hp, hp2]

theorem likeList_percent_iff (ps : List Char) : ∀ s,
    likeList ('%' :: ps) s = true ↔ ∃ a b, s = a ++ b ∧ likeList ps b = true := by
  intro s
  induction s with
  | nil =>
    rw [likeList_pct_nil]
    constructor
    · intro h
      exact ⟨[], [], rfl, h⟩
    · rintro ⟨a, b, hab, hb⟩
      obtain ⟨rfl, rfl⟩ := List.append_eq_nil.mp hab.symm
      exact hb
  | cons c cs ih =>
    rw [likeList_pct_cons]
    simp only [Bool.or_eq_true]
    constructor
    · rintro (h | h)
      · exact ⟨[], c :: cs, rfl, h⟩
      · obtain ⟨a, b, rfl, hb⟩ := ih.mp h
        exact ⟨c :: a, b, rfl, hb⟩
    · rintro ⟨a, b, hab, hb⟩
      cases a with
      | nil =>
        left
        simp only [List.nil_append] at hab
        rw [hab]
        exact hb
      | cons a0 as =>
        right
        simp only [List.cons_append, List.cons.injEq] at hab
        exact ih.mpr ⟨as, b, hab.2, hb⟩

theorem likeList_lit_percent_iff (v : List Char) (hw : ∀ c ∈ v, c ≠ '%' ∧ c ≠ '_') : ∀ s,
    likeList (v ++ ['%']) s = true ↔ ∃ a b, s = a ++ b ∧ lowerL a = lowerL v := by
  induction v with
  | nil =>
    intro s
    simp only [List.nil_append]
    rw [likeList_percent_iff]
    constructor
    · rintro ⟨a, b, rfl, -⟩
      exact ⟨[], a ++ b, rfl, rfl⟩
    · rintro ⟨a, b, rfl, -⟩
      refine ⟨a ++ b, [], by simp, ?_⟩
      rw [likeList_nil_eq]
      rfl
  | cons p v ihv =>
    intro s
    have hp := hw p (by simp)
    have hwrest : ∀ c ∈ v, c ≠ '%' ∧ c ≠ '_' := fun c hc => hw c (by simp [hc])
    cases s with
    | nil =>
      rw [List.cons_append, likeList_lit_nil _ _ hp.1]
      refine iff_of_false (by simp) ?_
      rintro ⟨a, b, hab, ha⟩
      cases a with
      | nil =>
        have hlen := congrArg List.length ha
        simp [lowerL] at hlen
      | cons a0 as => simp at hab
    | cons c cs =>
      rw [List.cons_append, likeList_lit_cons _ _ _ _ hp.1 hp.2]
      simp only [Bool.and_eq_true, beq_iff_eq]
      rw [ihv hwrest cs]
      constructor
      · rintro ⟨heq, a, b, rfl, ha⟩
        refine ⟨c :: a, b, rfl, ?_⟩
        simp only [lowerL, List.map_cons]
        simp only [lowerL] at ha
        rw [ha, heq]
      · rintro ⟨a, b, hab, ha⟩
        cases a with
        | nil =>
          have hlen := congrArg List.length ha
          simp [lowerL] at hlen
        | cons a0 as =>
          simp only [List.cons_append, List.cons.injEq] at hab
          obtain ⟨rfl, hcs⟩ := hab
          simp only [lowerL, List.map_cons, List.cons.injEq] at ha
          exact ⟨ha.1.symm, as, b, hcs, ha.2⟩

theorem likeList_pattern_iff (v s : List Char) (hw : ∀ c ∈ v, c ≠ '%' ∧ c ≠ '_') :
    likeList ('%' :: (v ++ ['%'])) s = true ↔ lowerL v <:+: lowerL s := by
  rw [likeList_percent_iff]
  constructor
  · rintro ⟨a, b, rfl, hb⟩
    obtain ⟨x, y, rfl, hx⟩ := (likeList_lit_percent_iff v hw b).mp hb
    refine ⟨lowerL a, lowerL y, ?_⟩
    simp only [lowerL, List.map_append] at hx ⊢
    rw [hx, List.append_assoc]
  · rintro ⟨x, y, hxy⟩
    have hxy' : List.map Char.toLower s = x ++ (lowerL v ++ y) := by
      simp only [lowerL] at hxy ⊢
      rw [← hxy]
      simp [List.append_assoc]
    obtain ⟨a, rest, rfl, -, hrest⟩ := List.map_eq_append_iff.mp hxy'
    obtain ⟨mid, tail, rfl, hm, -⟩ := List.map_eq_append_iff.mp hrest
    exact ⟨a, mid ++ tail, rfl,
      (likeList_lit_percent_iff v hw _).mpr ⟨mid, tail, rfl, hm⟩⟩

theorem likeList_pattern_eq_decide (v s : List Char) (hw : ∀ c ∈ v, c ≠ '%' ∧ c ≠ '_') :
    likeList ('%' :: (v ++ ['%'])) s = decide (lowerL v <:+: lowerL s) := by
  by_cases h : lowerL v <:+: lowerL s
  · rw [(likeList_pattern_iff v s hw).mpr h, decide_eq_true h]
  · have hn : likeList ('%' :: (v ++ ['%'])) s ≠ true :=
      fun hc => h ((likeList_pattern_iff v s hw).mp hc)
    have hf : likeList ('%' :: (v ++ ['%'])) s = false := by
      cases hb : likeList ('%' :: (v ++ ['%'])) s
      · rfl
      · exact absurd hb hn
    rw [hf, decide_eq_false h]

theorem fieldVal_of_not_numeric (m : Movie) (f : Col) (h : f.isNumericCol = false) :
    m.fieldVal f = .text (m.textOf f) := by
  cases f <;> simp_all [Col.isNumericCol, Movie.fieldVal, Movie.textOf]

theorem sqlEq_num_eq_decide (x : SqlValue) (v : ℚ) :
    sqlEq x (.num v) = decide (x = SqlValue.num v) := by
  cases x with
  | num a =>
    by_cases hav : a = v
    · subst hav
      simp [sqlEq]
    · simp [sqlEq, hav]
  | text a => simp [sqlEq]

/-- C4 (amended): a filter on a numeric column returns exactly the rows
whose column equals the value, in table order; a filter on a text
column, for a value free of the SQL wildcard characters '%' and '_',
returns exactly the rows whose column contains the value as a
case-insensitive substring, in table order (a value holding a wildcard
can also match rows that do not contain it: see the counterexample). -/
theorem filter_matches_spec (db : List Movie) (f : Col) :
    (f.isNumericCol = true → ∀ v : ℚ,
      filter_cinematic_treasures db f (.num v) =
        db.filter (fun m => decide (m.fieldVal f = SqlValue.num v))) ∧
    (f.isNumericCol = false → ∀ v : String,
      (∀ c ∈ v.toList, c ≠ '%' ∧ c ≠ '_') →
      filter_cinematic_treasures db f (.text v) =
        db.filter (fun m =>
          decide (lowerL v.toList <:+: lowerL (m.textOf f).toList))) := by
  constructor
  · intro hnum v
    unfold filter_cinematic_treasures
    rw [if_pos hnum]
    exact List.filter_congr (fun m _ => sqlEq_num_eq_decide _ v)
  · intro htext v hw
    unfold filter_cinematic_treasures
    rw [if_neg (by simp [htext])]
    apply List.filter_congr
    intro m _
    rw [fieldVal_of_not_numeric m f htext]
    show likeList (likePattern v) (m.textOf f).toList = _
    unfold likePattern
    exact likeList_pattern_eq_decide v.toList (m.textOf f).toList hw

/-- Closed witness for C4: both filter branches at concrete inputs. -/
theorem filter_matches_spec_witness :
    filter_cinematic_treasures [movieA] Col.rating (.num 8) =
      List.filter (fun m => decide (m.fieldVal Col.rating = SqlValue.num 8)) [movieA] ∧
    filter_cinematic_treasures [movieA] Col.title (.text "X") =
      List.filter
        (fun m => decide (lowerL "X".toList <:+: lowerL (m.textOf Col.title).toList))
        [movieA] :=
  ⟨(filter_matches_spec [movieA] Col.rating).1 rfl 8,
   (filter_matches_spec [movieA] Col.title).2 rfl "X" (by decide)⟩

/-- C4 counterexample: filtering the title column by the value "%"
returns the row titled "x" although "x" does not contain "%" as a
substring: the characters of the value act as LIKE wildcards, so the
case-insensitive-substring description of text filtering fails for
wildcard-bearing values. -/
theorem filter_wildcard_counterexample :
    filter_cinematic_treasures [movieA] Col.title (.text "%") = [movieA] ∧
    ¬ (lowerL "%".toList <:+: lowerL movieA.title.toList) := by
  constructor
  · unfold filter_cinematic_treasures
    rw [if_neg (by decide)]
    have hlike : likeList (likePattern "%") movieA.title.toList = true := by
      show likeList ('%' :: ("%".toList ++ ['%'])) "x".toList = true
      apply (likeList_percent_iff _ _).mpr
      refine ⟨"x".toList, [], by simp, ?_⟩
      rw [show ("%".toList ++ ['%'] : List Char) = '%' :: ['%'] from rfl]
      rw [likeList_pct_nil, likeList_pct_nil, likeList_nil_eq]
      rfl
    simp only [List.filter_cons, List.filter_nil]
    show (if likeList (likePattern "%") movieA.title.toList = true then [movieA] else [])
      = [movieA]
    rw [if_pos hlike]
  · decide
